import Mathlib

/-!
Verification of the doc-uploader repository's core flows: upload validation
(client and server), filename sanitization, storage-key generation, the
comments API ordering, comment submission, comment export, and the upload
progress indicator.  All definitions are shallow embeddings of the
TypeScript source; the hosted storage gateway (an external collaborator) is
represented by oracle parameters or, for ordered queries, by its documented
contract.
-/

set_option maxHeartbeats 1000000

namespace DocUploader

/-- A row of the files table (src/types: FileInfo / spec §3 FileRecord).
Timestamps are modelled as natural numbers. -/
structure FileRecord where
  id : String
  name : String
  url : String
  created_at : Nat
  deriving DecidableEq, Repr

/-- A row of the comments table (interface CommentData in src/pages/file/[id].tsx).
`created_at` is modelled as a natural-number timestamp. -/
structure Comment where
  id : String
  file_id : String
  user_name : String
  content : String
  created_at : Nat
  deriving DecidableEq, Repr

/-- JavaScript `str.split(sep)` for a one-character separator, on the
character list of the string.  `split` always yields at least one group:
`"".split('.') == [""]`, `"a.".split('.') == ["a",""]`. -/
def splitOnChar (sep : Char) : List Char → List (List Char)
  | [] => [[]]
  | c :: rest =>
    match splitOnChar sep rest with
    | [] => [[]]
    | g :: gs => if c = sep then [] :: g :: gs else (c :: g) :: gs

/-- `fileName.split('.').pop().toLowerCase()` — the extension derivation used
by both upload handlers and the client validator: the substring after the
last dot, lowercased; for a dot-free name this is the whole name. -/
def fileExtOf (name : String) : String :=
  String.mk (((splitOnChar '.' name.data).getLastD []).map Char.toLower)

/-- The accepted extensions `['pdf', 'doc', 'docx']`. -/
def allowedExts : List String := ["pdf", "doc", "docx"]

/-- Per-character action of `fileName.replace(/[^a-zA-Z0-9.-]/g, '_')`:
characters in the keep class pass through, all others become an underscore. -/
def sanitizeChar (c : Char) : Char :=
  if c.isAlpha || c.isDigit || c == '.' || c == '-' then c else '_'

/-- `sanitizeFileName` from the part_002 upload handler:
`fileName.replace(/[^a-zA-Z0-9.-]/g, '_')`, applied character by character. -/
def sanitizeFileName (fileName : String) : String :=
  String.mk (fileName.data.map sanitizeChar)

/-- JavaScript `Array.prototype.join(sep)`. -/
def joinWith (sep : String) : List String → String
  | [] => ""
  | [s] => s
  | s :: rest => s ++ sep ++ joinWith sep rest

/-- The character class `[A-Za-z0-9._-]` named by the spec for sanitized
storage keys. -/
def sanitizedClass (c : Char) : Bool :=
  c.isAlpha || c.isDigit || c == '.' || c == '_' || c == '-'

/-- JavaScript `str.trim()`: strip leading and trailing whitespace. -/
def jsTrim (s : String) : String :=
  String.mk (((s.data.dropWhile Char.isWhitespace).reverse.dropWhile
    Char.isWhitespace).reverse)

/-- Outcome of `handleFileValidation` in src/pages/index.tsx: the branch that
sets the error string "File size must be less than 5MB", the branch that sets
"Only PDF and DOC files are allowed", or the branch that selects the file. -/
inductive ValidationResult where
  | fileTooLarge
  | unsupportedType
  | ok
  deriving DecidableEq, Repr

/-- Client-side validator `handleFileValidation` (src/pages/index.tsx):
size is checked first, then the extension, first failing check wins. -/
def handleFileValidation (name : String) (size : Nat) : ValidationResult :=
  if size > 5 * 1024 * 1024 then ValidationResult.fileTooLarge
  else if !(allowedExts.contains (fileExtOf name)) then ValidationResult.unsupportedType
  else ValidationResult.ok

/-- The `{data, error}` shape supabase returns for
`.from('files').insert([...]).select().single()`: on failure `data` is null
and `error` is set; awaiting the builder never throws. -/
structure FileInsertResult where
  data : Option FileRecord
  error : Option String
  deriving Repr

/-- HTTP responses the upload handlers can produce.  `ok200` carries the
JSON body `fileRecord.data`, which the source sends without consulting
`fileRecord.error`. -/
inductive UploadResponse where
  | methodNotAllowed
  | badRequest (msg : String)
  | serverError (msg : String)
  | ok200 (data : Option FileRecord)
  deriving DecidableEq, Repr

/-- Storage-gateway calls an upload handler performs, in order. -/
inductive UploadEffect where
  | blobWrite (key : String) (bytes : List Nat)
  | fileInsert (name url : String)
  deriving DecidableEq, Repr

/-- The upload handler of src/pages/api/upload.ts.  The supabase storage
upload and the files-table insert are oracle parameters (`storageUpload`
returns `data.path` on success or the thrown error, `filesInsert` returns
the `{data, error}` pair).  Mirrors the source exactly: extension check,
then size check, then blob write under the key
`` `${Date.now()}-${fileName}` `` (no sanitization), then insert of
`{name: fileName, url: data.path}`, then `res.status(200).json(fileRecord.data)`
— the insert's `error` field is never consulted, as in the source. -/
def uploadHandler (method fileName : String) (fileBuffer : List Nat) (now : Nat)
    (storageUpload : String → List Nat → Except String String)
    (filesInsert : String → String → FileInsertResult) :
    UploadResponse × List UploadEffect :=
  if method ≠ "POST" then (UploadResponse.methodNotAllowed, [])
  else if !(allowedExts.contains (fileExtOf fileName)) then
    (UploadResponse.badRequest "Invalid file type", [])
  else if fileBuffer.length > 5 * 1024 * 1024 then
    (UploadResponse.badRequest "File size exceeds 5MB limit", [])
  else
    let key := toString now ++ "-" ++ fileName
    match storageUpload key fileBuffer with
    | Except.error e => (UploadResponse.serverError e, [UploadEffect.blobWrite key fileBuffer])
    | Except.ok path =>
      (UploadResponse.ok200 (filesInsert fileName path).data,
       [UploadEffect.blobWrite key fileBuffer, UploadEffect.fileInsert fileName path])

/-- The upload handler variant of src/unnamed/part_002: identical to
`uploadHandler` except the storage key is
`` `${Date.now()}-${sanitizeFileName(fileName)}` ``. -/
def uploadHandlerSanitized (method fileName : String) (fileBuffer : List Nat) (now : Nat)
    (storageUpload : String → List Nat → Except String String)
    (filesInsert : String → String → FileInsertResult) :
    UploadResponse × List UploadEffect :=
  if method ≠ "POST" then (UploadResponse.methodNotAllowed, [])
  else if !(allowedExts.contains (fileExtOf fileName)) then
    (UploadResponse.badRequest "Invalid file type", [])
  else if fileBuffer.length > 5 * 1024 * 1024 then
    (UploadResponse.badRequest "File size exceeds 5MB limit", [])
  else
    let key := toString now ++ "-" ++ sanitizeFileName fileName
    match storageUpload key fileBuffer with
    | Except.error e => (UploadResponse.serverError e, [UploadEffect.blobWrite key fileBuffer])
    | Except.ok path =>
      (UploadResponse.ok200 (filesInsert fileName path).data,
       [UploadEffect.blobWrite key fileBuffer, UploadEffect.fileInsert fileName path])

/-- Ordering relation used by `.order('created_at', { ascending: true })`. -/
def createdAtLE (a b : Comment) : Prop := a.created_at ≤ b.created_at

instance : DecidableRel createdAtLE := fun a b => Nat.decLe a.created_at b.created_at

instance : IsTotal Comment createdAtLE := ⟨fun a b => Nat.le_total a.created_at b.created_at⟩

instance : IsTrans Comment createdAtLE := ⟨fun _ _ _ => Nat.le_trans⟩

/-- Modelled from the spec: the Storage Gateway's
`queryRecords('comments', {file_id: fileId}, {created_at, ascending})`
(§6) — the gateway itself is an external collaborator not in this
repository.  It returns the matching rows sorted ascending by `created_at`
(stable, so equal timestamps keep table order, matching §3's tie rule). -/
def orderByCreatedAtAsc (rows : List Comment) : List Comment :=
  List.insertionSort createdAtLE rows

/-- Rows of the comments table with the given `file_id`, ascending by
`created_at` — the query issued by both GET /api/comments and the page's
`loadComments`. -/
def queryCommentsAsc (table : List Comment) (fileId : String) : List Comment :=
  orderByCreatedAtAsc (table.filter fun c => c.file_id == fileId)

/-- The `{data, error}` shape supabase returns for
`.from('comments').insert([...]).select()`: `data` is the list of inserted
rows. -/
structure CommentInsertResult where
  data : List Comment
  error : Option String
  deriving Repr

/-- HTTP responses of src/pages/api/comments.ts.  `postOk` carries `data[0]`
(`none` when the returned row list is empty), `getOk` the ordered rows. -/
inductive CommentsResponse where
  | postOk (c : Option Comment)
  | getOk (cs : List Comment)
  | serverError (msg : String)
  | methodNotAllowed
  deriving DecidableEq, Repr

/-- A comments-table insert reaching the storage layer. -/
inductive CommentEffect where
  | insert (fileId userName content : String)
  deriving DecidableEq, Repr

/-- The handler of src/pages/api/comments.ts.  POST inserts the body as-is
(no validation) through the `insertComment` oracle and answers with `data[0]`
or a 500; GET answers with the table rows for `fileId` ordered ascending by
`created_at` (the gateway query's success path); anything else is a 405. -/
def commentsApiHandler (method fileId userName content : String)
    (table : List Comment)
    (insertComment : String → String → String → CommentInsertResult) :
    CommentsResponse × List CommentEffect :=
  if method = "POST" then
    let r := insertComment fileId userName content
    match r.error with
    | some e => (CommentsResponse.serverError e, [CommentEffect.insert fileId userName content])
    | none => (CommentsResponse.postOk r.data.head?, [CommentEffect.insert fileId userName content])
  else if method = "GET" then
    (CommentsResponse.getOk (queryCommentsAsc table fileId), [])
  else (CommentsResponse.methodNotAllowed, [])

/-- The document page's local state relevant to commenting: the in-memory
comment list, the draft text (`newComment`), and the session user name. -/
structure PageState where
  comments : List Comment
  newComment : String
  userName : String
  deriving DecidableEq, Repr

/-- The page's `loadComments` (src/pages/file/[id].tsx): guard on the id,
then replace the local list with the gateway query's ascending result
(success path; on a query error the source leaves the list unchanged). -/
def loadComments (table : List Comment) (idOpt : Option String) (st : PageState) :
    PageState :=
  match idOpt with
  | none => st
  | some fid =>
    if fid = "" then st
    else { st with comments := queryCommentsAsc table fid }

/-- Outcome of the page's comment insert
(`supabase.from('comments').insert([...]).select(...).single()`):
a returned row, a returned error, or a thrown exception (the catch branch). -/
inductive CommentInsertOutcome where
  | ok (c : Comment)
  | err (msg : String)
  | threw (msg : String)
  deriving Repr

/-- The page's `handleComment` (src/pages/file/[id].tsx): return unchanged
when the trimmed draft is empty or the id is missing/empty (no insert is
attempted); otherwise insert, and only on a returned row append it to the
end of the local list and clear the draft — on a returned error or a thrown
exception the local state is left untouched. -/
def handleComment (st : PageState) (idOpt : Option String)
    (insertOutcome : String → String → String → CommentInsertOutcome) :
    PageState × List CommentEffect :=
  if jsTrim st.newComment = "" then (st, [])
  else
    match idOpt with
    | none => (st, [])
    | some fid =>
      if fid = "" then (st, [])
      else
        match insertOutcome fid st.userName st.newComment with
        | CommentInsertOutcome.err _ =>
          (st, [CommentEffect.insert fid st.userName st.newComment])
        | CommentInsertOutcome.threw _ =>
          (st, [CommentEffect.insert fid st.userName st.newComment])
        | CommentInsertOutcome.ok c =>
          ({ st with comments := st.comments ++ [c], newComment := "" },
           [CommentEffect.insert fid st.userName st.newComment])

/-- One exported paragraph:
`` `${c.user_name} (${fmt(c.created_at)}): ${c.content}` `` where `fmt`
abstracts the human-readable local timestamp rendering
(`new Date(...).toLocaleString()` in src/pages/file/[id].tsx,
`format(..., 'PPpp')` in the part_002 page). -/
def formatComment (fmt : Nat → String) (c : Comment) : String :=
  c.user_name ++ " (" ++ fmt c.created_at ++ "): " ++ c.content

/-- The comments text built by `handleExport`:
`comments.map(c => ...).join('\n\n')`. -/
def exportCommentsText (fmt : Nat → String) (comments : List Comment) : String :=
  joinWith "\n\n" (comments.map (formatComment fmt))

/-- Events that change `uploadProgress` in `handleUpload`
(src/pages/index.tsx): an interval tick, the success branch after
`response.ok`, and the catch branch. -/
inductive UploadEvent where
  | tick
  | success
  | failure
  deriving DecidableEq, Repr

/-- Effect of one event on `uploadProgress`: a tick holds at 90 or adds 10,
the success branch sets 100, the catch branch resets to 0. -/
def progressStep (p : Nat) : UploadEvent → Nat
  | UploadEvent.tick => if p ≥ 90 then p else p + 10
  | UploadEvent.success => 100
  | UploadEvent.failure => 0

/-- The progress value after a sequence of events, starting from the
initial state 0. -/
def runProgress (events : List UploadEvent) : Nat :=
  events.foldl progressStep 0

/-- String append is associative (via the underlying character lists). -/
theorem strAppend_assoc (a b c : String) : a ++ b ++ c = a ++ (b ++ c) := by
  apply String.ext
  simp [String.data_append]

/-- A character in the regex keep class is left unchanged. -/
theorem sanitizeChar_keep (c : Char)
    (h : (c.isAlpha || c.isDigit || c == '.' || c == '-') = true) :
    sanitizeChar c = c := if_pos h

/-- A character outside the regex keep class becomes an underscore. -/
theorem sanitizeChar_repl (c : Char)
    (h : ¬ (c.isAlpha || c.isDigit || c == '.' || c == '-') = true) :
    sanitizeChar c = '_' := if_neg h

/-- One sanitization pass fixes every character. -/
theorem sanitizeChar_idem (c : Char) :
    sanitizeChar (sanitizeChar c) = sanitizeChar c := by
  by_cases h : (c.isAlpha || c.isDigit || c == '.' || c == '-') = true
  · rw [sanitizeChar_keep c h]
    exact sanitizeChar_keep c h
  · rw [sanitizeChar_repl c h]
    decide

/-- Every output character of the sanitizer is in `[A-Za-z0-9._-]`. -/
theorem sanitizedClass_sanitizeChar (a : Char) :
    sanitizedClass (sanitizeChar a) = true := by
  by_cases h : (a.isAlpha || a.isDigit || a == '.' || a == '-') = true
  · rw [sanitizeChar_keep a h]
    simp only [sanitizedClass, Bool.or_eq_true] at h ⊢
    tauto
  · rw [sanitizeChar_repl a h]
    decide

/-- C3: the filename sanitization is idempotent — sanitize(sanitize(name))
equals sanitize(name) for every string — and every character of
sanitize(name) lies in the class [A-Za-z0-9._-]. -/
theorem c3_sanitize_idempotent_charset (name : String) :
    sanitizeFileName (sanitizeFileName name) = sanitizeFileName name ∧
    ∀ c ∈ (sanitizeFileName name).data, sanitizedClass c = true := by
  constructor
  · apply String.ext
    simp [sanitizeFileName, List.map_map, Function.comp, sanitizeChar_idem]
  · intro c hc
    simp only [sanitizeFileName, List.mem_map] at hc
    obtain ⟨a, _, ha⟩ := hc
    exact ha ▸ sanitizedClass_sanitizeChar a

/-- Witness for C3: concrete instance on the name "a b", whose sanitized
form "a_b" contains the replacement underscore. -/
theorem c3_sanitize_idempotent_charset_witness :
    sanitizeFileName (sanitizeFileName "a b") = sanitizeFileName "a b" ∧
    sanitizedClass '_' = true :=
  ⟨(c3_sanitize_idempotent_charset "a b").1,
   (c3_sanitize_idempotent_charset "a b").2 '_' (by decide)⟩

/-- C6 counterexample: a submission whose trimmed content is empty does
reach the storage layer through the append path of POST /api/comments — the
handler performs no content validation, inserts the whitespace-only body
as-is, and answers 200 with the inserted row, not a validation error. -/
theorem c6_counterexample :
    jsTrim "   " = "" ∧
    commentsApiHandler "POST" "f1" "Alice" "   " []
        (fun fid u c => CommentInsertResult.mk [⟨"c9", fid, u, c, 5⟩] none) =
      (CommentsResponse.postOk (some ⟨"c9", "f1", "Alice", "   ", 5⟩),
       [CommentEffect.insert "f1" "Alice" "   "]) :=
  ⟨by decide, rfl⟩

/-- C6 amended: only the page-level append (handleComment in
src/pages/file/[id].tsx) rejects a submission whose trimmed content is
empty — it returns before any network call, leaving the page state
unchanged and producing no insert effect (a silent rejection); the POST
/api/comments handler itself performs no content validation, so an
empty-trimmed submission posted directly to the API is inserted. -/
theorem c6_empty_content_rejected (st : PageState) (idOpt : Option String)
    (ins : String → String → String → CommentInsertOutcome)
    (h : jsTrim st.newComment = "") :
    handleComment st idOpt ins = (st, []) := by
  unfold handleComment
  rw [if_pos h]

/-- Witness for C6: a whitespace-only draft is rejected with no write even
though the insert oracle would fail loudly if called. -/
theorem c6_empty_content_rejected_witness :
    handleComment ⟨[], "   ", "Alice"⟩ (some "f1")
        (fun _ _ _ => CommentInsertOutcome.err "boom") =
      (⟨[], "   ", "Alice"⟩, []) :=
  c6_empty_content_rejected _ _ _ (by decide)

/-- C10: comment submission is atomic for the local state — a returned
error or a thrown exception leaves the comment list and the draft
untouched, and only a successful insert appends the new comment to the end
of the list and clears the draft. -/
theorem c10_comment_submit_atomic (st : PageState) (fid : String)
    (ins : String → String → String → CommentInsertOutcome)
    (h : ¬ jsTrim st.newComment = "") (hfid : ¬ fid = "") :
    (∀ e, ins fid st.userName st.newComment = CommentInsertOutcome.err e →
      handleComment st (some fid) ins =
        (st, [CommentEffect.insert fid st.userName st.newComment])) ∧
    (∀ e, ins fid st.userName st.newComment = CommentInsertOutcome.threw e →
      handleComment st (some fid) ins =
        (st, [CommentEffect.insert fid st.userName st.newComment])) ∧
    (∀ c, ins fid st.userName st.newComment = CommentInsertOutcome.ok c →
      handleComment st (some fid) ins =
        ({ comments := st.comments ++ [c], newComment := "",
           userName := st.userName },
         [CommentEffect.insert fid st.userName st.newComment])) := by
  refine ⟨fun e he => ?_, fun e he => ?_, fun c hc => ?_⟩
  · simp [handleComment, h, hfid, he]
  · simp [handleComment, h, hfid, he]
  · simp [handleComment, h, hfid, hc]

/-- Witness for C10: concrete failed and successful submissions. -/
theorem c10_comment_submit_atomic_witness :
    handleComment ⟨[], "hello", "Alice"⟩ (some "f1")
        (fun _ _ _ => CommentInsertOutcome.err "down") =
      (⟨[], "hello", "Alice"⟩, [CommentEffect.insert "f1" "Alice" "hello"]) ∧
    handleComment ⟨[], "hello", "Alice"⟩ (some "f1")
        (fun fid u c => CommentInsertOutcome.ok ⟨"c1", fid, u, c, 3⟩) =
      (⟨[⟨"c1", "f1", "Alice", "hello", 3⟩], "", "Alice"⟩,
       [CommentEffect.insert "f1" "Alice" "hello"]) :=
  ⟨(c10_comment_submit_atomic ⟨[], "hello", "Alice"⟩ "f1" _
      (by decide) (by decide)).1 "down" rfl,
   (c10_comment_submit_atomic ⟨[], "hello", "Alice"⟩ "f1" _
      (by decide) (by decide)).2.2 ⟨"c1", "f1", "Alice", "hello", 3⟩ rfl⟩

/-- Starting at a multiple of ten no greater than 90, any run of the
progress automaton that never sees the success event stays at a multiple of
ten no greater than 90. -/
theorem progress_foldl_bound (evs : List UploadEvent) :
    ∀ p : Nat, p ≤ 90 → p % 10 = 0 → UploadEvent.success ∉ evs →
      List.foldl progressStep p evs ≤ 90 ∧
      List.foldl progressStep p evs % 10 = 0 := by
  induction evs with
  | nil => exact fun p h1 h2 _ => ⟨h1, h2⟩
  | cons e rest ih =>
    intro p h1 h2 hmem
    have hne : e ≠ UploadEvent.success := fun hh => hmem (hh ▸ List.mem_cons_self e rest)
    have hrest : UploadEvent.success ∉ rest := fun hh => hmem (List.mem_cons_of_mem e hh)
    cases e with
    | success => exact absurd rfl hne
    | failure => exact ih 0 (by norm_num) (by norm_num) hrest
    | tick =>
      by_cases h90 : p ≥ 90
      · simpa [progressStep, h90] using ih p h1 h2 hrest
      · have hp : p + 10 ≤ 90 := by omega
        have hm : (p + 10) % 10 = 0 := by omega
        simpa [progressStep, h90] using ih (p + 10) hp hm hrest

/-- C8: the observed progress value stays at most 90 until the upload
response is known successful, equals 100 only if the success event occurred,
and a failure event resets it to 0. -/
theorem c8_progress (events : List UploadEvent) :
    (UploadEvent.success ∉ events → runProgress events ≤ 90) ∧
    (runProgress events = 100 → UploadEvent.success ∈ events) ∧
    runProgress (events ++ [UploadEvent.failure]) = 0 := by
  refine ⟨fun h => (progress_foldl_bound events 0 (by norm_num) (by norm_num) h).1,
    ?_, ?_⟩
  · intro h100
    by_contra hmem
    have hb := (progress_foldl_bound events 0 (by norm_num) (by norm_num) hmem).1
    unfold runProgress at h100
    omega
  · unfold runProgress
    rw [List.foldl_append]
    rfl

/-- Witness for C8: two timer ticks without a response leave progress at
20, below the 90 cap. -/
theorem c8_progress_witness :
    runProgress [UploadEvent.tick, UploadEvent.tick] ≤ 90 :=
  (c8_progress [UploadEvent.tick, UploadEvent.tick]).1 (by decide)

/-- `split` on a separator absent from the list returns the single group
holding the whole list. -/
theorem splitOnChar_of_not_mem (sep : Char) (l : List Char) (h : sep ∉ l) :
    splitOnChar sep l = [l] := by
  induction l with
  | nil => rfl
  | cons c rest ih =>
    have hc : ¬ c = sep := fun hh => h (hh ▸ List.mem_cons_self c rest)
    have hrest : sep ∉ rest := fun hh => h (List.mem_cons_of_mem c hh)
    simp [splitOnChar, ih hrest, hc]

/-- C9: the handlers derive the extension as the substring after the last
dot; a dot-free name is its own (lowercased) extension, so the bare names
pdf, doc and docx pass the type check, and an upload named "pdf" is never
rejected as an invalid file type. -/
theorem c9_extension_no_dot (name : String) (buf : List Nat) (now : Nat)
    (su : String → List Nat → Except String String)
    (fi : String → String → FileInsertResult)
    (h : ('.' : Char) ∉ name.data) :
    fileExtOf name = String.mk (name.data.map Char.toLower) ∧
    allowedExts.contains (fileExtOf "pdf") = true ∧
    allowedExts.contains (fileExtOf "doc") = true ∧
    allowedExts.contains (fileExtOf "docx") = true ∧
    (uploadHandler "POST" "pdf" buf now su fi).1 ≠
      UploadResponse.badRequest "Invalid file type" := by
  refine ⟨?_, by decide, by decide, by decide, ?_⟩
  · unfold fileExtOf
    rw [splitOnChar_of_not_mem '.' name.data h]
    rfl
  · unfold uploadHandler
    rw [if_neg (by simp : ¬ ("POST" ≠ "POST"))]
    rw [show (!(allowedExts.contains (fileExtOf "pdf"))) = false from by decide]
    simp only [Bool.false_eq_true, if_false]
    by_cases h3 : buf.length > 5 * 1024 * 1024
    · rw [if_pos h3]
      simp
    · rw [if_neg h3]
      cases hsu : su (toString now ++ "-" ++ "pdf") buf with
      | error e => simp [hsu]
      | ok path => simp [hsu]

/-- Witness for C9: the dot-free name "PDF" yields itself lowercased as the
extension. -/
theorem c9_extension_no_dot_witness :
    fileExtOf "PDF" = String.mk ("PDF".data.map Char.toLower) :=
  (c9_extension_no_dot "PDF" [] 0 (fun k _ => Except.ok k)
    (fun _ _ => FileInsertResult.mk none none) (by decide)).1

/-- C1 counterexample: an over-size upload (5 MiB + 1 byte) named
"notes.txt" is answered by the server-side handler with the
invalid-file-type rejection, not the size rejection — the server checks the
extension first, so the claimed size-first short-circuit fails there. -/
theorem c1_counterexample :
    (uploadHandler "POST" "notes.txt" (List.replicate (5 * 1024 * 1024 + 1) 0) 0
        (fun k _ => Except.ok k)
        (fun n u => FileInsertResult.mk (some ⟨"1", n, u, 0⟩) none)).1 =
      UploadResponse.badRequest "Invalid file type" ∧
    5 * 1024 * 1024 + 1 > 5 * 1024 * 1024 ∧
    UploadResponse.badRequest "Invalid file type" ≠
      UploadResponse.badRequest "File size exceeds 5MB limit" :=
  ⟨rfl, by norm_num, by decide⟩

/-- C1 amended: the client-side validator applies the size rule first, so
any over-size candidate reports FileTooLarge regardless of extension; the
server-side handler applies the extension rule first, so an over-size body
is rejected with the size error only when its extension is supported, and
with the invalid-file-type error otherwise. -/
theorem c1_amended (name fileName : String) (size : Nat) (buf : List Nat) (now : Nat)
    (su : String → List Nat → Except String String)
    (fi : String → String → FileInsertResult)
    (hsize : size > 5 * 1024 * 1024) (hbuf : buf.length > 5 * 1024 * 1024) :
    handleFileValidation name size = ValidationResult.fileTooLarge ∧
    (allowedExts.contains (fileExtOf fileName) = false →
      (uploadHandler "POST" fileName buf now su fi).1 =
        UploadResponse.badRequest "Invalid file type") ∧
    (allowedExts.contains (fileExtOf fileName) = true →
      (uploadHandler "POST" fileName buf now su fi).1 =
        UploadResponse.badRequest "File size exceeds 5MB limit") := by
  refine ⟨?_, fun hext => ?_, fun hext => ?_⟩
  · unfold handleFileValidation
    rw [if_pos hsize]
  · have hext' : fileExtOf fileName ∉ allowedExts := by simpa using hext
    simp [uploadHandler, hext']
  · have hext' : fileExtOf fileName ∈ allowedExts := by simpa using hext
    simp [uploadHandler, hext', hbuf]

/-- Witness for C1 amended: the 5 MiB + 1 byte candidate named "notes.txt"
is client-rejected as FileTooLarge and server-rejected as invalid type. -/
theorem c1_amended_witness :
    handleFileValidation "notes.txt" (5 * 1024 * 1024 + 1) =
      ValidationResult.fileTooLarge ∧
    (uploadHandler "POST" "notes.txt" (List.replicate (5 * 1024 * 1024 + 1) 0) 0
        (fun k _ => Except.ok k)
        (fun n u => FileInsertResult.mk (some ⟨"1", n, u, 0⟩) none)).1 =
      UploadResponse.badRequest "Invalid file type" := by
  have h := c1_amended "notes.txt" "notes.txt" (5 * 1024 * 1024 + 1)
    (List.replicate (5 * 1024 * 1024 + 1) 0) 0 (fun k _ => Except.ok k)
    (fun n u => FileInsertResult.mk (some ⟨"1", n, u, 0⟩) none)
    (by norm_num) (by rw [List.length_replicate]; norm_num)
  exact ⟨h.1, h.2.1 (by decide)⟩

/-- C2: evaluation at the failing input — a valid POST whose blob write
succeeds but whose files-table insert returns an error is still answered
with a 200 whose body is the null `data`, because the source never consults
the insert result's error field. -/
theorem c2_insert_failure_returns_200 :
    uploadHandler "POST" "report.pdf" [0] 0 (fun k _ => Except.ok k)
        (fun _ _ => FileInsertResult.mk none (some "insert failed")) =
      (UploadResponse.ok200 none,
       [UploadEffect.blobWrite "0-report.pdf" [0],
        UploadEffect.fileInsert "report.pdf" "0-report.pdf"]) := rfl

/-- C4 counterexample: the upload.ts handler writes the blob of
"my report.pdf" under the key "0-my report.pdf" — the raw filename after the
timestamp — which differs from the timestamp prefix followed by the
sanitized filename, so the claim fails on that handler. -/
theorem c4_counterexample :
    (uploadHandler "POST" "my report.pdf" [0] 0 (fun k _ => Except.ok k)
        (fun n u => FileInsertResult.mk (some ⟨"7", n, u, 0⟩) none)).2 =
      [UploadEffect.blobWrite "0-my report.pdf" [0],
       UploadEffect.fileInsert "my report.pdf" "0-my report.pdf"] ∧
    "0-my report.pdf" ≠ "0-" ++ sanitizeFileName "my report.pdf" :=
  ⟨rfl, by decide⟩

/-- C4 amended: the part_002 upload handler (the variant that sanitizes)
satisfies the claim: for a valid file it writes the blob under the key
timestamp-"-"-sanitize(fileName), inserts name = original filename and
url = that key, and the 200 body carries the gateway-assigned non-empty id;
the upload.ts handler instead uses the raw filename in the key. -/
theorem c4_amended (fileName : String) (buf : List Nat) (now : Nat)
    (su : String → List Nat → Except String String)
    (fi : String → String → FileInsertResult) (newId : String) (ts : Nat)
    (hext : allowedExts.contains (fileExtOf fileName) = true)
    (hsize : ¬ buf.length > 5 * 1024 * 1024)
    (hsu : ∀ k b, su k b = Except.ok k)
    (hfi : ∀ n u, fi n u = FileInsertResult.mk (some ⟨newId, n, u, ts⟩) none)
    (hid : ¬ newId = "") :
    uploadHandlerSanitized "POST" fileName buf now su fi =
      (UploadResponse.ok200 (some
        ⟨newId, fileName, toString now ++ "-" ++ sanitizeFileName fileName, ts⟩),
       [UploadEffect.blobWrite (toString now ++ "-" ++ sanitizeFileName fileName) buf,
        UploadEffect.fileInsert fileName
          (toString now ++ "-" ++ sanitizeFileName fileName)]) ∧
    ¬ newId = "" := by
  refine ⟨?_, hid⟩
  have hext' : fileExtOf fileName ∈ allowedExts := by simpa using hext
  simp [uploadHandlerSanitized, hext', hsize, hsu, hfi]

/-- Witness for C4 amended: uploading "report.PDF" (already clean) through
the sanitizing handler yields the key "5-report.PDF" and a record with the
original name and a non-empty id. -/
theorem c4_amended_witness :
    uploadHandlerSanitized "POST" "report.PDF" [1] 5 (fun k _ => Except.ok k)
        (fun n u => FileInsertResult.mk (some ⟨"42", n, u, 9⟩) none) =
      (UploadResponse.ok200 (some ⟨"42", "report.PDF", "5-report.PDF", 9⟩),
       [UploadEffect.blobWrite "5-report.PDF" [1],
        UploadEffect.fileInsert "report.PDF" "5-report.PDF"]) ∧
    ¬ ("42" : String) = "" := by
  have h := c4_amended "report.PDF" [1] 5 (fun k _ => Except.ok k)
    (fun n u => FileInsertResult.mk (some ⟨"42", n, u, 9⟩) none) "42" 9
    (by decide) (by decide) (fun k b => rfl) (fun n u => rfl) (by decide)
  exact h

/-- C5: GET /api/comments answers with the table rows for the requested
file ordered ascending by created_at, and both that sequence and the list
the page's loadComments stores have non-decreasing created_at. -/
theorem c5_comments_sorted (fileId userName content idStr : String)
    (table : List Comment)
    (ins : String → String → String → CommentInsertResult)
    (st : PageState) (h : ¬ idStr = "") :
    (commentsApiHandler "GET" fileId userName content table ins).1 =
      CommentsResponse.getOk (queryCommentsAsc table fileId) ∧
    List.Chain' (fun a b => a ≤ b)
      ((queryCommentsAsc table fileId).map Comment.created_at) ∧
    List.Chain' (fun a b => a ≤ b)
      ((loadComments table (some idStr) st).comments.map Comment.created_at) := by
  have hsorted : ∀ fid : String, List.Chain' (fun a b => a ≤ b)
      ((queryCommentsAsc table fid).map Comment.created_at) := by
    intro fid
    have hs : List.Sorted createdAtLE (queryCommentsAsc table fid) :=
      List.sorted_insertionSort createdAtLE _
    have hp : List.Chain' createdAtLE (queryCommentsAsc table fid) :=
      List.Pairwise.chain' hs
    exact (List.chain'_map Comment.created_at).mpr hp
  refine ⟨?_, hsorted fileId, ?_⟩
  · simp [commentsApiHandler]
  · simp only [loadComments, h, if_neg, if_false]
    exact hsorted idStr

/-- Witness for C5: loading the comments of file f1 from a table holding
out-of-order rows and a row of another file yields a non-decreasing
sequence. -/
theorem c5_comments_sorted_witness :
    List.Chain' (fun a b => a ≤ b)
      ((loadComments
          [⟨"c2", "f1", "Bob", "yo", 7⟩, ⟨"c1", "f1", "Alice", "hi", 3⟩,
           ⟨"c3", "f2", "Eve", "x", 1⟩]
          (some "f1") ⟨[], "", ""⟩).comments.map Comment.created_at) :=
  (c5_comments_sorted "f1" "" "" "f1"
    [⟨"c2", "f1", "Bob", "yo", 7⟩, ⟨"c1", "f1", "Alice", "hi", 3⟩,
     ⟨"c3", "f2", "Eve", "x", 1⟩]
    (fun _ _ _ => CommentInsertResult.mk [] none) ⟨[], "", ""⟩ (by decide)).2.2

/-- C7: the exported comment text is one paragraph per comment in list
order, consecutive paragraphs separated by exactly one blank line, each
paragraph being user_name, the formatted timestamp in parentheses, a colon
and the content; for [Alice "hi" t1, Bob "yo" t2] with t1 < t2 it is
exactly the quoted two-paragraph string. -/
theorem c7_export_format (fmt : Nat → String) (c : Comment) (cs : List Comment)
    (id1 id2 fid1 fid2 : String) (t1 t2 : Nat) (h : t1 < t2) (hcs : cs ≠ []) :
    exportCommentsText fmt [] = "" ∧
    exportCommentsText fmt [c] = formatComment fmt c ∧
    exportCommentsText fmt (c :: cs) =
      formatComment fmt c ++ "\n\n" ++ exportCommentsText fmt cs ∧
    exportCommentsText fmt
        [⟨id1, fid1, "Alice", "hi", t1⟩, ⟨id2, fid2, "Bob", "yo", t2⟩] =
      "Alice (" ++ fmt t1 ++ "): hi" ++ "\n\n" ++
        ("Bob (" ++ fmt t2 ++ "): yo") := by
  refine ⟨rfl, rfl, ?_, ?_⟩
  · cases cs with
    | nil => exact absurd rfl hcs
    | cons d ds => rfl
  · show "Alice" ++ " (" ++ fmt t1 ++ "): " ++ "hi" ++ "\n\n" ++
        ("Bob" ++ " (" ++ fmt t2 ++ "): " ++ "yo") = _
    rw [show ("Alice" : String) ++ " (" = "Alice (" from rfl,
        show ("Bob" : String) ++ " (" = "Bob (" from rfl,
        strAppend_assoc ("Alice (" ++ fmt t1) "): " "hi",
        strAppend_assoc ("Bob (" ++ fmt t2) "): " "yo",
        show ("): " : String) ++ "hi" = "): hi" from rfl,
        show ("): " : String) ++ "yo" = "): yo" from rfl]

/-- Witness for C7: with timestamps rendered by toString, the two-comment
thread exports to the exact expected text. -/
theorem c7_export_format_witness :
    exportCommentsText (fun t => toString t)
        [⟨"1", "f", "Alice", "hi", 1⟩, ⟨"2", "f", "Bob", "yo", 2⟩] =
      "Alice (1): hi\n\nBob (2): yo" := by
  have h := (c7_export_format (fun t => toString t) ⟨"1", "f", "Alice", "hi", 1⟩
      [⟨"2", "f", "Bob", "yo", 2⟩] "1" "2" "f" "f" 1 2
      (by decide) (by decide)).2.2.2
  rw [h]
  decide

end DocUploader
